import Mathlib

/-!
Verification of the contact-manager core in `src/task1.py`.

The embedding is a shallow one:
* Python `datetime.date` values become the structure `PyDate` (year, month,
  day as `Nat`), with Gregorian validity, weekday (Monday = 0 … Sunday = 6),
  day addition and day difference defined arithmetically via a day count
  from 0001-01-01.
* Exceptions become `Except BookError` / `Option`; a method that may raise
  while mutating is embedded as a state transformer returning the (possibly
  unchanged) object together with the outcome.
* The address book (a Python `dict`, insertion-ordered) becomes a list of
  `(name, record)` pairs; assignment to an existing key replaces the value
  in place, a new key is appended.
* `get_birthdays_per_week` reads `datetime.today()` inside its loop, once
  per record that has a birthday; this clock is embedded as an explicit
  oracle `Nat → PyDate` giving the value of each successive read.
* Python `str.isdigit` and the digit class `\\d` of the `strptime` regexps
  are embedded through explicit code-point tables generated from CPython
  3.11 / Unicode 14.0.0, so Unicode digit strings behave as in the code.
-/

/-- Gregorian leap-year test, as Python's `calendar.isleap` /
`datetime.date` use it. -/
def isLeapYear (y : Nat) : Bool :=
  (y % 4 == 0 && y % 100 != 0) || (y % 400 == 0)

/-- Length of month `m` (1–12) in a year with leap flag `leap`;
0 for an out-of-range month. -/
def daysInMonth (leap : Bool) (m : Nat) : Nat :=
  match m with
  | 1 => 31
  | 2 => if leap then 29 else 28
  | 3 => 31
  | 4 => 30
  | 5 => 31
  | 6 => 30
  | 7 => 31
  | 8 => 31
  | 9 => 30
  | 10 => 31
  | 11 => 30
  | 12 => 31
  | _ => 0

/-- Days of the year strictly before month `m` (1–12). -/
def daysBeforeMonth (leap : Bool) (m : Nat) : Nat :=
  let l : Nat := if leap then 1 else 0
  match m with
  | 1 => 0
  | 2 => 31
  | 3 => 59 + l
  | 4 => 90 + l
  | 5 => 120 + l
  | 6 => 151 + l
  | 7 => 181 + l
  | 8 => 212 + l
  | 9 => 243 + l
  | 10 => 273 + l
  | 11 => 304 + l
  | 12 => 334 + l
  | _ => 0

/-- A calendar date: Python `datetime.date`, with no range restriction on
the fields (validity is the separate predicate `validDate`). -/
structure PyDate where
  year : Nat
  month : Nat
  day : Nat
deriving DecidableEq, Repr

/-- Number of days before year `y` (counting from 0001-01-01 as day 0),
proleptic Gregorian. -/
def daysBeforeYear (y : Nat) : Nat :=
  365 * (y - 1) + ((y - 1) / 4 + (y - 1) / 400 - (y - 1) / 100)

/-- Day count of a date from 0001-01-01 (which is day 0, a Monday). -/
def toDays (d : PyDate) : Nat :=
  daysBeforeYear d.year + daysBeforeMonth (isLeapYear d.year) d.month + (d.day - 1)

/-- Python `date.weekday()`: Monday = 0 … Sunday = 6. -/
def weekday (d : PyDate) : Nat :=
  toDays d % 7

/-- Python `(d1 - d2).days`: exact signed day difference. -/
def dateSub (d1 d2 : PyDate) : Int :=
  (toDays d1 : Int) - (toDays d2 : Int)

/-- The dates `datetime.date` can represent: year 1–9999, month 1–12,
day 1–length of the month. Constructing anything else raises `ValueError`. -/
def validDate (d : PyDate) : Bool :=
  1 ≤ d.year && d.year ≤ 9999 && 1 ≤ d.month && d.month ≤ 12 &&
    1 ≤ d.day && d.day ≤ daysInMonth (isLeapYear d.year) d.month

/-- The fields a well-formed month/day pair must satisfy for the day
arithmetic below (no upper year bound, unlike `validDate`). -/
def validDMY (d : PyDate) : Bool :=
  1 ≤ d.year && 1 ≤ d.month && d.month ≤ 12 &&
    1 ≤ d.day && d.day ≤ daysInMonth (isLeapYear d.year) d.month

/-- Python date comparison `d1 <= d2`: lexicographic on
(year, month, day). -/
def pyLe (d1 d2 : PyDate) : Bool :=
  d1.year < d2.year ||
    (d1.year == d2.year &&
      (d1.month < d2.month || (d1.month == d2.month && d1.day ≤ d2.day)))

/-- Python `d.replace(year = y)`: same month and day in year `y`;
`none` embeds the `ValueError` raised when that date does not exist
(Feb 29 in a non-leap year, or a year outside 1–9999). -/
def replaceYear (d : PyDate) (y : Nat) : Option PyDate :=
  if validDate ⟨y, d.month, d.day⟩ then some ⟨y, d.month, d.day⟩ else none

/-- The calendar successor of a date (used to embed `date + timedelta`). -/
def nextDay (d : PyDate) : PyDate :=
  if d.day < daysInMonth (isLeapYear d.year) d.month then
    ⟨d.year, d.month, d.day + 1⟩
  else if d.month < 12 then
    ⟨d.year, d.month + 1, 1⟩
  else
    ⟨d.year + 1, 1, 1⟩

/-- Python `d + timedelta(days = n)` for `n ≥ 0`. -/
def addDays (d : PyDate) : Nat → PyDate
  | 0 => d
  | Nat.succ k => addDays (nextDay d) k

/-- The error kinds of §7 of the spec. `invalidPhoneNumber` embeds
`InvalidPhoneNumberError`, `invalidDate` the `ValueError` from
`datetime.strptime`, `contactNotFound` the `KeyError` from dict lookup. -/
inductive BookError
  | invalidPhoneNumber
  | invalidDate
  | contactNotFound
deriving DecidableEq, Repr

/-- The code points on which Python `str.isdigit()` is true (characters
with Numeric_Type Digit or Decimal), as inclusive code-point ranges;
generated from CPython 3.11 / Unicode 14.0.0. -/
def pyDigitRanges : List (Nat × Nat) :=
  [(48, 57), (178, 179), (185, 185), (1632, 1641), (1776, 1785),
   (1984, 1993), (2406, 2415), (2534, 2543), (2662, 2671), (2790, 2799),
   (2918, 2927), (3046, 3055), (3174, 3183), (3302, 3311), (3430, 3439),
   (3558, 3567), (3664, 3673), (3792, 3801), (3872, 3881), (4160, 4169),
   (4240, 4249), (4969, 4977), (6112, 6121), (6160, 6169), (6470, 6479),
   (6608, 6618), (6784, 6793), (6800, 6809), (6992, 7001), (7088, 7097),
   (7232, 7241), (7248, 7257), (8304, 8304), (8308, 8313), (8320, 8329),
   (9312, 9320), (9332, 9340), (9352, 9360), (9450, 9450), (9461, 9469),
   (9471, 9471), (10102, 10110), (10112, 10120), (10122, 10130),
   (42528, 42537), (43216, 43225), (43264, 43273), (43472, 43481),
   (43504, 43513), (43600, 43609), (44016, 44025), (65296, 65305),
   (66720, 66729), (68160, 68163), (68912, 68921), (69216, 69224),
   (69714, 69722), (69734, 69743), (69872, 69881), (69942, 69951),
   (70096, 70105), (70384, 70393), (70736, 70745), (70864, 70873),
   (71248, 71257), (71360, 71369), (71472, 71481), (71904, 71913),
   (72016, 72025), (72784, 72793), (73040, 73049), (73120, 73129),
   (92768, 92777), (92864, 92873), (93008, 93017), (120782, 120831),
   (123200, 123209), (123632, 123641), (125264, 125273), (127232, 127242),
   (130032, 130041)]

/-- Python `str.isdigit()` on one character. -/
def pyIsDigitChar (c : Char) : Bool :=
  pyDigitRanges.any (fun p => p.1 ≤ c.toNat && c.toNat ≤ p.2)

/-- The check of `Phone.__init__` (src/task1.py line 25):
`len(value) == 10 and value.isdigit()`. -/
def isValidPhone (s : String) : Bool :=
  s.length == 10 && s.toList.all pyIsDigitChar

/-- `Phone(value)` (src/task1.py lines 23–27): the validated phone string,
or `InvalidPhoneNumberError`. -/
def mkPhone (s : String) : Except BookError String :=
  if isValidPhone s then Except.ok s else Except.error BookError.invalidPhoneNumber

/-- A contact record: name, validated phone, optional birthday
(src/task1.py lines 30–34). -/
structure Record where
  name : String
  phone : String
  birthday : Option PyDate
deriving DecidableEq, Repr

/-- `Record.__init__(name, phone)` (src/task1.py lines 31–34): validates the
phone, stores the name verbatim, starts with no birthday. -/
def Record.create (name phone : String) : Except BookError Record :=
  match mkPhone phone with
  | Except.error e => Except.error e
  | Except.ok p => Except.ok ⟨name, p, none⟩

/-- `Record.update_phone` (src/task1.py lines 41–42): `Phone(new)` is
constructed before assignment, so on failure the record is unchanged. -/
def Record.update_phone (r : Record) (newPhone : String) :
    Except BookError Unit × Record :=
  match mkPhone newPhone with
  | Except.error e => (Except.error e, r)
  | Except.ok p => (Except.ok (), { r with phone := p })

/-- Start code points of the 10-character digit runs matched by the regex
class `\\d` (Unicode category Nd) in CPython's `re` module (Unicode
14.0.0); each run holds the digits 0–9 of one script, in order. -/
def ndDigitBlocks : List Nat :=
  [48, 1632, 1776, 1984, 2406, 2534, 2662, 2790, 2918, 3046, 3174, 3302,
   3430, 3558, 3664, 3792, 3872, 4160, 4240, 6112, 6160, 6470, 6608, 6784,
   6800, 6992, 7088, 7232, 7248, 42528, 43216, 43264, 43472, 43504, 43600,
   44016, 65296, 66720, 68912, 69734, 69872, 69942, 70096, 70384, 70736,
   70864, 71248, 71360, 71472, 71904, 72016, 72784, 73040, 73120, 92768,
   92864, 93008, 120782, 120792, 120802, 120812, 120822, 123200, 123632,
   125264, 130032]

/-- The decimal value of a character matched by the regex class `\\d`,
as `int()` converts it; `none` when the character is no decimal digit. -/
def ndDigitVal (c : Char) : Option Nat :=
  match ndDigitBlocks.find? (fun lo => lo ≤ c.toNat && c.toNat ≤ lo + 9) with
  | some lo => some (c.toNat - lo)
  | none => none

/-- CPython's `%d` directive, the regex `3[0-1]|[1-2]\\d|0[1-9]|[1-9]| [1-9]`
of `Lib/_strptime.py` applied to one dot-separated field, then `int()`:
the bracketed alternatives are literal ASCII, `\\d` is any Unicode decimal
digit, and a space-padded single day 1–9 is allowed. -/
def parseDayField (cs : List Char) : Option Nat :=
  match cs with
  | ['3', c] =>
    if c = '0' then some 30 else if c = '1' then some 31 else none
  | [c1, c2] =>
    if c1 = '1' || c1 = '2' then
      match ndDigitVal c2 with
      | some v2 => some ((if c1 = '1' then 1 else 2) * 10 + v2)
      | none => none
    else if c1 = '0' || c1 = ' ' then
      if '1' ≤ c2 && c2 ≤ '9' then some (c2.toNat - 48) else none
    else none
  | [c] => if '1' ≤ c && c ≤ '9' then some (c.toNat - 48) else none
  | _ => none

/-- CPython's `%m` directive, the all-ASCII regex `1[0-2]|0[1-9]|[1-9]`
applied to one dot-separated field, then `int()`. -/
def parseMonthField (cs : List Char) : Option Nat :=
  match cs with
  | ['1', c] =>
    if '0' ≤ c && c ≤ '2' then some (10 + (c.toNat - 48)) else none
  | ['0', c] =>
    if '1' ≤ c && c ≤ '9' then some (c.toNat - 48) else none
  | [c] => if '1' ≤ c && c ≤ '9' then some (c.toNat - 48) else none
  | _ => none

/-- CPython's `%Y` directive `\\d\\d\\d\\d`: exactly four Unicode decimal
digits, converted by `int()`. -/
def parseYear4 (cs : List Char) : Option Nat :=
  match cs with
  | [a, b, c, d] =>
    match ndDigitVal a, ndDigitVal b, ndDigitVal c, ndDigitVal d with
    | some va, some vb, some vc, some vd =>
      some (((va * 10 + vb) * 10 + vc) * 10 + vd)
    | _, _, _, _ => none
  | _ => none

/-- Split a character list at every literal dot (the separators of the
`"%d.%m.%Y"` format string); like Python `s.split(".")`. -/
def splitOnDot (cs : List Char) : List (List Char) :=
  match cs with
  | [] => [[]]
  | c :: rest =>
    if c = '.' then [] :: splitOnDot rest
    else
      match splitOnDot rest with
      | [] => [[c]]
      | h :: t => (c :: h) :: t

/-- `datetime.strptime(s, "%d.%m.%Y").date()` (src/task1.py line 37):
day then month then four-digit year, separated by literal dots, with the
resulting calendar date validated by the `datetime` constructor; `none`
embeds the `ValueError` on any mismatch. -/
def strptimeDMY (s : String) : Option PyDate :=
  match splitOnDot s.toList with
  | [ds, ms, ys] =>
    match parseDayField ds, parseMonthField ms, parseYear4 ys with
    | some d, some m, some y =>
      if validDate ⟨y, m, d⟩ then some ⟨y, m, d⟩ else none
    | _, _, _ => none
  | _ => none

/-- `Record.add_birthday` (src/task1.py lines 36–39): parse the string and
store the date; the parse happens before assignment, so on failure the
record (in particular any previously stored birthday) is unchanged. -/
def Record.add_birthday (r : Record) (s : String) :
    Except BookError Unit × Record :=
  match strptimeDMY s with
  | none => (Except.error BookError.invalidDate, r)
  | some d => (Except.ok (), { r with birthday := some d })

/-- The address book: a Python `dict` from name to record, in insertion
order (src/task1.py line 48). -/
abbrev AddressBook := List (String × Record)

/-- `AddressBook.add_record` (src/task1.py lines 49–50):
`self.data[record.name.value] = record` — replace in place when the key
exists, append otherwise. Never fails. -/
def AddressBook.add_record (book : AddressBook) (r : Record) : AddressBook :=
  if book.any (fun e => e.1 == r.name) then
    book.map (fun e => if e.1 == r.name then (r.name, r) else e)
  else
    book ++ [(r.name, r)]

/-- `AddressBook.find` (src/task1.py lines 52–53): `self[name]`, raising
`KeyError` when the name is absent. -/
def AddressBook.find (book : AddressBook) (name : String) :
    Except BookError Record :=
  match book.find? (fun e => e.1 == name) with
  | some e => Except.ok e.2
  | none => Except.error BookError.contactNotFound

/-- `AddressBook.delete` (src/task1.py lines 55–56): `self.data.pop(name)`,
raising `KeyError` when the name is absent. -/
def AddressBook.delete (book : AddressBook) (name : String) :
    Except BookError AddressBook :=
  if book.any (fun e => e.1 == name) then
    Except.ok (book.eraseP (fun e => e.1 == name))
  else Except.error BookError.contactNotFound

/-- The next-birthday computation of `get_birthdays_per_week`
(src/task1.py lines 68–76): put the birthday's month/day in `today`'s
year; if the result is `≤ today`, move it to the following year; `none`
embeds the `ValueError` path (`continue`, skipping the contact). -/
def nextBirthdayFor (today b : PyDate) : Option PyDate :=
  match replaceYear b today.year with
  | none => none
  | some nb =>
    if pyLe nb today then replaceYear nb (nb.year + 1)
    else some nb

/-- The weekend shift of `get_birthdays_per_week` (src/task1.py
lines 79–84): a Saturday/Sunday next birthday moves forward by
`7 - weekday` days; any other day is kept. -/
def dateToCongratulate (nb : PyDate) : PyDate :=
  if weekday nb == 5 || weekday nb == 6 then addDays nb (7 - weekday nb)
  else nb

/-- One loop iteration of `get_birthdays_per_week` for a record that has
the birthday `b`, given the value `today` that `datetime.today()` returned
on this iteration (src/task1.py lines 68–92): `none` when the contact is
skipped, otherwise the `(weekday, name)` pair appended to the result. -/
def processEntry (today : PyDate) (name : String) (b : PyDate) :
    Option (Nat × String) :=
  match nextBirthdayFor today b with
  | none => none
  | some nb =>
    let dtc := dateToCongratulate nb
    if 7 < dateSub dtc today then none
    else some (weekday dtc, name)

/-- `AddressBook.get_birthdays_per_week` (src/task1.py lines 58–94) under a
clock frozen at `today` for the whole query: the list of
`(weekday, name)` pairs in iteration order. The `defaultdict` result is
recovered by `bucket`. -/
def AddressBook.get_birthdays_per_week (today : PyDate) (book : AddressBook) :
    List (Nat × String) :=
  book.filterMap (fun e =>
    match e.2.birthday with
    | none => none
    | some b => processEntry today e.1 b)

/-- One weekday's list in the `defaultdict(list)` result: the names
appended for weekday `w`, in iteration order (src/task1.py lines 59, 90–92). -/
def bucket (pairs : List (Nat × String)) (w : Nat) : List String :=
  (pairs.filter (fun p => p.1 == w)).map Prod.snd

/-- `AddressBook.get_birthdays_per_week` as the source actually runs it
(src/task1.py line 66): `datetime.today()` is called inside the loop, once
per record that has a birthday; `clock i` is the date the i-th such call
returns. -/
def getBirthdaysPerWeekClock (clock : Nat → PyDate) :
    AddressBook → Nat → List (Nat × String)
  | [], _ => []
  | e :: rest, i =>
    match e.2.birthday with
    | none => getBirthdaysPerWeekClock clock rest i
    | some b =>
      match processEntry (clock i) e.1 b with
      | none => getBirthdaysPerWeekClock clock rest (i + 1)
      | some p => p :: getBirthdaysPerWeekClock clock rest (i + 1)

/-- The loop of `get_birthdays_per_week` with the address-book state
threaded explicitly through every iteration (src/task1.py lines 60–92): the
first component is the state `self.data` after the loop, the second the
pairs collected. No branch of the body writes to the state. -/
def queryLoopState (clock : Nat → PyDate) :
    List (String × Record) → Nat → AddressBook →
      AddressBook × List (Nat × String)
  | [], _, st => (st, [])
  | e :: rest, i, st =>
    match e.2.birthday with
    | none => queryLoopState clock rest i st
    | some b =>
      match processEntry (clock i) e.1 b with
      | none => queryLoopState clock rest (i + 1) st
      | some p =>
        let res := queryLoopState clock rest (i + 1) st
        (res.1, p :: res.2)

/-- `get_birthdays_per_week` as a state transformer on the address book:
iterate over the current entries, return the final state and the result. -/
def getBirthdaysPerWeekState (clock : Nat → PyDate) (book : AddressBook) :
    AddressBook × List (Nat × String) :=
  queryLoopState clock book 0 book

/-- The spec's phone-number condition (§3, §8), stated independently of the
code's check: exactly ten characters, each a decimal digit `'0'`–`'9'`. -/
def isTenDecimalDigits (s : String) : Bool :=
  s.toList.length == 10 &&
    s.toList.all (fun c => ('0' : Char) ≤ c && c ≤ ('9' : Char))

theorem daysBeforeYear_succ (y : Nat) (hy : 1 ≤ y) :
    daysBeforeYear (y + 1) =
      daysBeforeYear y + (if isLeapYear y then 366 else 365) := by
  unfold daysBeforeYear isLeapYear
  by_cases h : ((y % 4 == 0 && y % 100 != 0) || (y % 400 == 0)) = true
  · rw [if_pos h]
    simp only [Bool.or_eq_true, Bool.and_eq_true, beq_iff_eq, bne_iff_ne] at h
    omega
  · rw [if_neg h]
    simp only [Bool.or_eq_true, Bool.and_eq_true, beq_iff_eq, bne_iff_ne,
      not_or, not_and, not_not] at h
    omega

theorem daysBeforeMonth_succ (l : Bool) (m : Nat) (h1 : 1 ≤ m) (h2 : m ≤ 11) :
    daysBeforeMonth l (m + 1) = daysBeforeMonth l m + daysInMonth l m := by
  interval_cases m <;> cases l <;> rfl

theorem daysBeforeMonth_leap_bounds (m : Nat) (h1 : 1 ≤ m) (h2 : m ≤ 12) :
    daysBeforeMonth false m ≤ daysBeforeMonth true m ∧
      daysBeforeMonth true m ≤ daysBeforeMonth false m + 1 := by
  interval_cases m <;> exact ⟨by decide, by decide⟩

theorem one_le_daysInMonth (l : Bool) (m : Nat) (h1 : 1 ≤ m) (h2 : m ≤ 12) :
    1 ≤ daysInMonth l m := by
  interval_cases m <;> cases l <;> decide

theorem PyDate.mk_year (y m d : Nat) : PyDate.year ⟨y, m, d⟩ = y := rfl

theorem PyDate.mk_month (y m d : Nat) : PyDate.month ⟨y, m, d⟩ = m := rfl

theorem PyDate.mk_day (y m d : Nat) : PyDate.day ⟨y, m, d⟩ = d := rfl

theorem toDays_mk (y m d : Nat) :
    toDays ⟨y, m, d⟩ =
      daysBeforeYear y + daysBeforeMonth (isLeapYear y) m + (d - 1) := rfl

theorem validDMY_mk (y m d : Nat) :
    validDMY ⟨y, m, d⟩ = true ↔
      (1 ≤ y ∧ 1 ≤ m ∧ m ≤ 12 ∧ 1 ≤ d ∧ d ≤ daysInMonth (isLeapYear y) m) := by
  simp only [validDMY, Bool.and_eq_true, decide_eq_true_eq, PyDate.mk_year,
    PyDate.mk_month, PyDate.mk_day]
  tauto

theorem toDays_nextDay (d : PyDate) (h : validDMY d = true) :
    toDays (nextDay d) = toDays d + 1 := by
  obtain ⟨y, m, dd⟩ := d
  obtain ⟨hy, hm1, hm2, hd1, hd2⟩ := (validDMY_mk y m dd).mp h
  unfold nextDay
  simp only [PyDate.mk_year, PyDate.mk_month, PyDate.mk_day]
  split
  · next hlt =>
    simp only [toDays_mk]
    omega
  · next hlt =>
    split
    · next hm12 =>
      have hstep := daysBeforeMonth_succ (isLeapYear y) m hm1 (by omega)
      simp only [toDays_mk]
      omega
    · next hm12 =>
      have hm : m = 12 := by omega
      subst hm
      have hdim : daysInMonth (isLeapYear y) 12 = 31 := rfl
      have hys := daysBeforeYear_succ y hy
      have h12 : daysBeforeMonth (isLeapYear y) 12 =
          334 + (if isLeapYear y then 1 else 0) := by
        cases isLeapYear y <;> rfl
      have h1a : daysBeforeMonth (isLeapYear (y + 1)) 1 = 0 := by
        cases isLeapYear (y + 1) <;> rfl
      have hif : (if isLeapYear y then (366 : Nat) else 365) =
          365 + (if isLeapYear y then 1 else 0) := by
        cases isLeapYear y <;> rfl
      rw [hif] at hys
      simp only [toDays_mk, h1a, h12] at *
      omega

theorem validDMY_nextDay (d : PyDate) (h : validDMY d = true) :
    validDMY (nextDay d) = true := by
  obtain ⟨y, m, dd⟩ := d
  obtain ⟨hy, hm1, hm2, hd1, hd2⟩ := (validDMY_mk y m dd).mp h
  unfold nextDay
  simp only [PyDate.mk_year, PyDate.mk_month, PyDate.mk_day]
  split
  · next hlt =>
    rw [validDMY_mk]
    omega
  · next hlt =>
    split
    · next hm12 =>
      have hone := one_le_daysInMonth (isLeapYear y) (m + 1) (by omega) (by omega)
      rw [validDMY_mk]
      omega
    · next hm12 =>
      have hone : daysInMonth (isLeapYear (y + 1)) 1 = 31 := by
        cases isLeapYear (y + 1) <;> rfl
      rw [validDMY_mk]
      omega

theorem toDays_addDays (d : PyDate) (n : Nat) (h : validDMY d = true) :
    toDays (addDays d n) = toDays d + n ∧ validDMY (addDays d n) = true := by
  induction n generalizing d with
  | zero => exact ⟨rfl, h⟩
  | succ k ih =>
    have h1 := toDays_nextDay d h
    have h2 := validDMY_nextDay d h
    have h3 := ih (nextDay d) h2
    simp only [addDays]
    exact ⟨by rw [h3.1, h1]; omega, h3.2⟩

theorem validDMY_of_validDate (d : PyDate) (h : validDate d = true) :
    validDMY d = true := by
  simp only [validDate, Bool.and_eq_true, decide_eq_true_eq] at h
  simp only [validDMY, Bool.and_eq_true, decide_eq_true_eq]
  tauto

theorem replaceYear_some (d : PyDate) (y : Nat) (nb : PyDate)
    (h : replaceYear d y = some nb) :
    nb = ⟨y, d.month, d.day⟩ ∧ validDate nb = true := by
  unfold replaceYear at h
  split at h
  · next hv => cases h; exact ⟨rfl, hv⟩
  · cases h

theorem validDate_of_nextBirthdayFor (today b nb : PyDate)
    (h : nextBirthdayFor today b = some nb) : validDate nb = true := by
  unfold nextBirthdayFor at h
  rcases h1 : replaceYear b today.year with _ | nb0 <;> rw [h1] at h
  · cases h
  · dsimp only at h
    by_cases hle : pyLe nb0 today = true
    · rw [if_pos hle] at h
      exact (replaceYear_some nb0 (nb0.year + 1) nb h).2
    · rw [if_neg hle] at h
      cases h
      exact (replaceYear_some b today.year _ h1).2

theorem toDays_year_succ_ge (y m d : Nat) (hy : 1 ≤ y) (hm1 : 1 ≤ m)
    (hm2 : m ≤ 12) :
    toDays ⟨y, m, d⟩ + 365 ≤ toDays ⟨y + 1, m, d⟩ := by
  have hys := daysBeforeYear_succ y hy
  have hb := daysBeforeMonth_leap_bounds m hm1 hm2
  simp only [toDays_mk]
  cases hL : isLeapYear y
  · rw [if_neg (by simp [hL])] at hys
    cases hL1 : isLeapYear (y + 1) <;> omega
  · rw [if_pos hL] at hys
    cases hL1 : isLeapYear (y + 1) <;> omega

theorem toDays_dateToCongratulate_ge (nb : PyDate) (hv : validDMY nb = true) :
    toDays nb ≤ toDays (dateToCongratulate nb) := by
  unfold dateToCongratulate
  split
  · have h := (toDays_addDays nb (7 - weekday nb) hv).1
    omega
  · exact Nat.le_refl _

theorem processEntry_snd (today : PyDate) (nm : String) (b : PyDate)
    (p : Nat × String) (h : processEntry today nm b = some p) : p.2 = nm := by
  unfold processEntry at h
  rcases hnb : nextBirthdayFor today b with _ | nb <;> rw [hnb] at h
  · cases h
  · dsimp only at h
    split at h
    · cases h
    · cases h
      rfl

theorem value_eq_of_mem_nodup_keys (l : List (String × Record)) (a : String)
    (b1 b2 : Record) (hnd : (l.map Prod.fst).Nodup)
    (h1 : (a, b1) ∈ l) (h2 : (a, b2) ∈ l) : b1 = b2 := by
  induction l with
  | nil => cases h1
  | cons e rest ih =>
    simp only [List.map_cons, List.nodup_cons] at hnd
    rcases List.mem_cons.mp h1 with he1 | he1 <;>
      rcases List.mem_cons.mp h2 with he2 | he2
    · injection he1.trans he2.symm with hfst hsnd
    · exfalso
      apply hnd.1
      have hmm : a ∈ rest.map Prod.fst := List.mem_map_of_mem Prod.fst he2
      rw [← he1]
      exact hmm
    · exfalso
      apply hnd.1
      have hmm : a ∈ rest.map Prod.fst := List.mem_map_of_mem Prod.fst he1
      rw [← he2]
      exact hmm
    · exact ih hnd.2 he1 he2

theorem not_mem_bucket_of_skip (today : PyDate) (book : AddressBook)
    (n : String) (r : Record) (b : PyDate) (w : Nat)
    (hmem : (n, r) ∈ book) (hnd : (book.map Prod.fst).Nodup)
    (hb : r.birthday = some b)
    (hskip : processEntry today n b = none) :
    n ∉ bucket (AddressBook.get_birthdays_per_week today book) w := by
  intro hmemb
  simp only [bucket, List.mem_map] at hmemb
  obtain ⟨p, hpfilter, hpn⟩ := hmemb
  have hpmem := (List.mem_filter.mp hpfilter).1
  simp only [AddressBook.get_birthdays_per_week, List.mem_filterMap] at hpmem
  obtain ⟨e, hemem, he⟩ := hpmem
  rcases hbe : e.2.birthday with _ | b2 <;> rw [hbe] at he
  · cases he
  · dsimp only at he
    have hname : p.2 = e.1 := processEntry_snd today e.1 b2 p he
    have hkey : e.1 = n := by rw [← hname, hpn]
    have hepair : e = (n, e.2) := by
      rw [← hkey]
    have hrec : e.2 = r := by
      apply value_eq_of_mem_nodup_keys book n e.2 r hnd
      · rw [← hepair]; exact hemem
      · exact hmem
    rw [hrec] at hbe
    rw [hb] at hbe
    cases hbe
    rw [hkey] at he
    rw [hskip] at he
    cases he

/-- C1: the 7-day lookahead window of `get_birthdays_per_week` is evaluated
against the shifted congratulation date, not the raw birthday: for every
record of the book with a birthday, if the shifted `dateToCongratulate`
ends up more than 7 days after `today` — whether because of the weekend
shift or the next-year rollover — the contact's name appears in no bucket
of the result. -/
theorem window_excludes_far_congratulation_date (today : PyDate)
    (book : AddressBook) (n : String) (r : Record) (b nb : PyDate) (w : Nat)
    (hmem : (n, r) ∈ book) (hnd : (book.map Prod.fst).Nodup)
    (hb : r.birthday = some b)
    (hnb : nextBirthdayFor today b = some nb)
    (hfar : 7 < dateSub (dateToCongratulate nb) today) :
    n ∉ bucket (AddressBook.get_birthdays_per_week today book) w := by
  apply not_mem_bucket_of_skip today book n r b w hmem hnd hb
  unfold processEntry
  rw [hnb]
  dsimp only
  rw [if_pos hfar]

/-- C1 witness: today is Friday 2024-06-14 and Fred's birthday is June 14,
within 7 days of today as a raw date, but the rollover pushes the
congratulation date to 2025, far outside the window, so Fred is reported
on no weekday. -/
theorem window_excludes_far_congratulation_date_witness :
    "Fred" ∉ bucket (AddressBook.get_birthdays_per_week ⟨2024, 6, 14⟩
      [("Fred", ⟨"Fred", "1234567890", some ⟨1990, 6, 14⟩⟩)]) 0 :=
  window_excludes_far_congratulation_date ⟨2024, 6, 14⟩
    [("Fred", ⟨"Fred", "1234567890", some ⟨1990, 6, 14⟩⟩)]
    "Fred" ⟨"Fred", "1234567890", some ⟨1990, 6, 14⟩⟩ ⟨1990, 6, 14⟩
    ⟨2025, 6, 14⟩ 0 (by decide) (by decide) rfl (by decide) (by decide)

/-- C2: for a computed next birthday that falls on a Saturday (weekday 5)
or Sunday (weekday 6), the congratulation date is the next birthday plus
`7 - weekday` days, which is the following Monday (weekday 0, one or two
days later); for every other weekday the congratulation date is the next
birthday unchanged. -/
theorem weekend_shift_to_following_monday (today b nb : PyDate)
    (h : nextBirthdayFor today b = some nb) :
    ((weekday nb = 5 ∨ weekday nb = 6) →
        dateToCongratulate nb = addDays nb (7 - weekday nb) ∧
        weekday (dateToCongratulate nb) = 0 ∧
        toDays nb < toDays (dateToCongratulate nb) ∧
        toDays (dateToCongratulate nb) ≤ toDays nb + 2) ∧
    (weekday nb ≠ 5 → weekday nb ≠ 6 → dateToCongratulate nb = nb) := by
  have hv : validDMY nb = true :=
    validDMY_of_validDate nb (validDate_of_nextBirthdayFor today b nb h)
  constructor
  · intro hwk
    have heq : dateToCongratulate nb = addDays nb (7 - weekday nb) := by
      unfold dateToCongratulate
      rcases hwk with h5 | h6
      · rw [if_pos (by rw [h5]; rfl)]
      · rw [if_pos (by rw [h6]; rfl)]
    have had := (toDays_addDays nb (7 - weekday nb) hv).1
    refine ⟨heq, ?_, ?_, ?_⟩
    · rw [heq]
      unfold weekday at had hwk ⊢
      rw [had]
      rcases hwk with hw | hw <;> omega
    · rw [heq]
      unfold weekday at had hwk ⊢
      rw [had]
      rcases hwk with hw | hw <;> omega
    · rw [heq]
      unfold weekday at had hwk ⊢
      rw [had]
      rcases hwk with hw | hw <;> omega
  · intro h5 h6
    unfold dateToCongratulate
    rw [if_neg]
    simp only [Bool.or_eq_true, beq_iff_eq]
    tauto

/-- C2 witness: 2024-06-15 is a Saturday next birthday; its congratulation
date is two days later, Monday 2024-06-17. -/
theorem weekend_shift_to_following_monday_witness :
    dateToCongratulate ⟨2024, 6, 15⟩ =
        addDays ⟨2024, 6, 15⟩ (7 - weekday ⟨2024, 6, 15⟩) ∧
      weekday (dateToCongratulate ⟨2024, 6, 15⟩) = 0 :=
  have h := (weekend_shift_to_following_monday ⟨2024, 6, 10⟩ ⟨1990, 6, 15⟩
    ⟨2024, 6, 15⟩ (by decide)).1 (Or.inl (by decide))
  ⟨h.1, h.2.1⟩

theorem leap_of_validDate_feb29 (y : Nat)
    (h : validDate ⟨y, 2, 29⟩ = true) : isLeapYear y = true := by
  simp only [validDate, Bool.and_eq_true, decide_eq_true_eq, PyDate.mk_year,
    PyDate.mk_month, PyDate.mk_day] at h
  cases hL : isLeapYear y
  · exfalso
    rw [hL] at h
    have h29 := h.2
    norm_num [daysInMonth] at h29
  · rfl

theorem nextBirthdayFor_feb29_none (today b : PyDate)
    (hm : b.month = 2) (hd : b.day = 29)
    (hfail : isLeapYear today.year = false ∨
      (pyLe ⟨today.year, 2, 29⟩ today = true ∧
        isLeapYear (today.year + 1) = false)) :
    nextBirthdayFor today b = none := by
  unfold nextBirthdayFor
  rcases hrep : replaceYear b today.year with _ | nb
  · rfl
  · obtain ⟨hnb, hv⟩ := replaceYear_some b today.year nb hrep
    rw [hm, hd] at hnb
    subst hnb
    have hleap : isLeapYear today.year = true := leap_of_validDate_feb29 _ hv
    dsimp only
    rcases hfail with hf | ⟨hle, hnl⟩
    · rw [hleap] at hf
      cases hf
    · rw [if_pos hle]
      unfold replaceYear
      rw [if_neg]
      intro hc
      have := leap_of_validDate_feb29 (today.year + 1) hc
      rw [this] at hnl
      cases hnl

/-- C3: a record whose birthday is February 29 is silently excluded from
the query's result whenever the candidate year lacks a Feb 29 — either
today's year is not a leap year, or the Feb 29 of today's year is not
after today and the following year is not a leap year. No error is
produced: the name simply appears in no bucket. -/
theorem feb29_silently_excluded (today : PyDate) (book : AddressBook)
    (n : String) (r : Record) (b : PyDate) (w : Nat)
    (hmem : (n, r) ∈ book) (hnd : (book.map Prod.fst).Nodup)
    (hb : r.birthday = some b)
    (hm : b.month = 2) (hd : b.day = 29)
    (hfail : isLeapYear today.year = false ∨
      (pyLe ⟨today.year, 2, 29⟩ today = true ∧
        isLeapYear (today.year + 1) = false)) :
    n ∉ bucket (AddressBook.get_birthdays_per_week today book) w := by
  apply not_mem_bucket_of_skip today book n r b w hmem hnd hb
  unfold processEntry
  rw [nextBirthdayFor_feb29_none today b hm hd hfail]

/-- C3 witness: Dana's birthday is 2024-02-29; with today = 2025-06-10 the
candidate year 2025 is not a leap year, so Dana is reported on no
weekday. -/
theorem feb29_silently_excluded_witness :
    "Dana" ∉ bucket (AddressBook.get_birthdays_per_week ⟨2025, 6, 10⟩
      [("Dana", ⟨"Dana", "1234567890", some ⟨2024, 2, 29⟩⟩)]) 0 :=
  feb29_silently_excluded ⟨2025, 6, 10⟩
    [("Dana", ⟨"Dana", "1234567890", some ⟨2024, 2, 29⟩⟩)]
    "Dana" ⟨"Dana", "1234567890", some ⟨2024, 2, 29⟩⟩ ⟨2024, 2, 29⟩ 0
    (by decide) (by decide) rfl rfl rfl (Or.inl (by decide))

theorem pyLe_refl (d : PyDate) : pyLe d d = true := by
  simp [pyLe]

/-- C4: for every birthday, whenever placing it in today's year succeeds
and yields a date `<= today`, the next birthday is advanced to the same
month/day in the following year (first conjunct, with no restriction on
the birthday's month or day); consequently a contact whose birthday
month/day equals today's month/day is rolled over to next year and, being
far outside the 7-day window, appears in no bucket of the result (second
conjunct). -/
theorem rollover_past_birthday_excludes_same_day (today : PyDate)
    (book : AddressBook) (n : String) (r : Record) (b : PyDate) (w : Nat)
    (hmem : (n, r) ∈ book) (hnd : (book.map Prod.fst).Nodup)
    (hb : r.birthday = some b)
    (hvt : validDate today = true) :
    (∀ b2 nb0, replaceYear b2 today.year = some nb0 →
        pyLe nb0 today = true →
        nextBirthdayFor today b2 = replaceYear nb0 (nb0.year + 1)) ∧
    (b.month = today.month → b.day = today.day →
        n ∉ bucket (AddressBook.get_birthdays_per_week today book) w) := by
  have hroll : ∀ b2 nb0, replaceYear b2 today.year = some nb0 →
      pyLe nb0 today = true →
      nextBirthdayFor today b2 = replaceYear nb0 (nb0.year + 1) := by
    intro b2 nb0 hrep hle
    unfold nextBirthdayFor
    rw [hrep]
    dsimp only
    rw [if_pos hle]
  refine ⟨hroll, ?_⟩
  intro hm hd
  have hrepl : replaceYear b today.year = some today := by
    unfold replaceYear
    rw [hm, hd]
    rw [if_pos (show validDate ⟨today.year, today.month, today.day⟩ = true from hvt)]
  have hnbf : nextBirthdayFor today b = replaceYear today (today.year + 1) :=
    hroll b today hrepl (pyLe_refl today)
  rcases hny : replaceYear today (today.year + 1) with _ | nb1
  · rw [hny] at hnbf
    apply not_mem_bucket_of_skip today book n r b w hmem hnd hb
    unfold processEntry
    rw [hnbf]
  · rw [hny] at hnbf
    obtain ⟨hnb1, hv1⟩ := replaceYear_some today (today.year + 1) nb1 hny
    have hvdmy1 : validDMY nb1 = true := validDMY_of_validDate nb1 hv1
    have hbounds : 1 ≤ today.year ∧ 1 ≤ today.month ∧ today.month ≤ 12 := by
      simp only [validDate, Bool.and_eq_true, decide_eq_true_eq] at hvt
      tauto
    have h365 : toDays today + 365 ≤ toDays nb1 := by
      have hstep := toDays_year_succ_ge today.year today.month today.day
        hbounds.1 hbounds.2.1 hbounds.2.2
      rw [hnb1]
      exact hstep
    have hge : toDays nb1 ≤ toDays (dateToCongratulate nb1) :=
      toDays_dateToCongratulate_ge nb1 hvdmy1
    have hfar : 7 < dateSub (dateToCongratulate nb1) today := by
      unfold dateSub
      omega
    apply not_mem_bucket_of_skip today book n r b w hmem hnd hb
    unfold processEntry
    rw [hnbf]
    dsimp only
    rw [if_pos hfar]

/-- C4 witness: today = 2024-06-10 and Cara's birthday is June 10; the next
birthday rolls over to 2025-06-10 and Cara is reported on no weekday. -/
theorem rollover_past_birthday_excludes_same_day_witness :
    "Cara" ∉ bucket (AddressBook.get_birthdays_per_week ⟨2024, 6, 10⟩
      [("Cara", ⟨"Cara", "1234567890", some ⟨1995, 6, 10⟩⟩)]) 0 :=
  (rollover_past_birthday_excludes_same_day ⟨2024, 6, 10⟩
    [("Cara", ⟨"Cara", "1234567890", some ⟨1995, 6, 10⟩⟩)]
    "Cara" ⟨"Cara", "1234567890", some ⟨1995, 6, 10⟩⟩ ⟨1995, 6, 10⟩ 0
    (by decide) (by decide) rfl (by decide)).2 rfl rfl

/-- C5 counterexample: `get_birthdays_per_week` takes no `today` parameter;
it reads `datetime.today()` internally (src/task1.py line 66). On the very
same address-book state, two runs whose internal clock reads differ return
different results, so the result is not a function of the book state and a
caller-supplied date. -/
theorem clock_read_internally_counterexample :
    getBirthdaysPerWeekClock (fun _ => ⟨2024, 6, 10⟩)
        [("Ann", ⟨"Ann", "1234567890", some ⟨1990, 6, 15⟩⟩)] 0 ≠
      getBirthdaysPerWeekClock (fun _ => ⟨2024, 1, 10⟩)
        [("Ann", ⟨"Ann", "1234567890", some ⟨1990, 6, 15⟩⟩)] 0 := by
  decide

/-- C5 amended: the query reads `datetime.today()` internally, once per
record that has a birthday, rather than taking `today` as a parameter;
when every internal clock read returns the same date `d` — in particular
across two runs under a clock frozen at `d` — the query is the
deterministic function `get_birthdays_per_week d` of the book state. -/
theorem query_deterministic_under_frozen_clock (clock : Nat → PyDate)
    (d : PyDate) (book : AddressBook) (i : Nat)
    (hc : ∀ j, clock j = d) :
    getBirthdaysPerWeekClock clock book i =
      AddressBook.get_birthdays_per_week d book := by
  induction book generalizing i with
  | nil => rfl
  | cons e rest ih =>
    simp only [getBirthdaysPerWeekClock, AddressBook.get_birthdays_per_week,
      List.filterMap_cons]
    rcases hbe : e.2.birthday with _ | b <;> dsimp only
    · exact ih i
    · rw [hc i]
      rcases hpe : processEntry d e.1 b with _ | p <;> dsimp only
      · exact ih (i + 1)
      · exact congrArg (p :: ·) (ih (i + 1))

/-- C5 amended witness: a frozen clock returning 2024-06-10 gives the same
result as the pure query at that date. -/
theorem query_deterministic_under_frozen_clock_witness :
    getBirthdaysPerWeekClock (fun _ => ⟨2024, 6, 10⟩)
        [("Ann", ⟨"Ann", "1234567890", some ⟨1990, 6, 15⟩⟩)] 0 =
      AddressBook.get_birthdays_per_week ⟨2024, 6, 10⟩
        [("Ann", ⟨"Ann", "1234567890", some ⟨1990, 6, 15⟩⟩)] :=
  query_deterministic_under_frozen_clock (fun _ => ⟨2024, 6, 10⟩)
    ⟨2024, 6, 10⟩ [("Ann", ⟨"Ann", "1234567890", some ⟨1990, 6, 15⟩⟩)] 0
    (fun _ => rfl)

theorem pyIsDigitChar_of_ascii (c : Char)
    (h : (('0' : Char) ≤ c && c ≤ ('9' : Char)) = true) :
    pyIsDigitChar c = true := by
  simp only [Bool.and_eq_true, decide_eq_true_eq, Char.le_def] at h
  have hn : 48 ≤ c.toNat ∧ c.toNat ≤ 57 := by
    obtain ⟨h1, h2⟩ := h
    exact ⟨h1, h2⟩
  unfold pyIsDigitChar
  apply List.any_eq_true.mpr
  refine ⟨(48, 57), by decide, ?_⟩
  simp only [Bool.and_eq_true, decide_eq_true_eq]
  exact hn

/-- C6 counterexample: the ten-character string of superscript-two
characters is not made of decimal digits, yet Python's
`len(value) == 10 and value.isdigit()` check accepts it ('²' has
Numeric_Type Digit), so `Record.create` succeeds instead of failing with
`InvalidPhoneNumber` as the claim requires for every non-decimal string. -/
theorem phone_unicode_digits_accepted :
    isTenDecimalDigits "²²²²²²²²²²" = false ∧
      Record.create "Ann" "²²²²²²²²²²" =
        Except.ok ⟨"Ann", "²²²²²²²²²²", none⟩ :=
  ⟨by decide, rfl⟩

/-- C6 amended: `Record.create` and `update_phone` succeed exactly for
strings of length 10 all of whose characters are Python digit characters
(a set that contains the decimal digits `'0'`–`'9'`, third conjunct, but
also other Unicode digits such as `'²'`); every other string makes both
fail with `InvalidPhoneNumber`, and a failed `update_phone` leaves the
record — in particular its stored phone — unchanged. -/
theorem phone_validation_python_digits (s name : String) (r : Record) :
    (s.length = 10 ∧ s.toList.all pyIsDigitChar = true →
        Record.create name s = Except.ok ⟨name, s, none⟩ ∧
        r.update_phone s = (Except.ok (), { r with phone := s })) ∧
    (¬(s.length = 10 ∧ s.toList.all pyIsDigitChar = true) →
        Record.create name s = Except.error BookError.invalidPhoneNumber ∧
        r.update_phone s = (Except.error BookError.invalidPhoneNumber, r)) ∧
    (isTenDecimalDigits s = true →
        s.length = 10 ∧ s.toList.all pyIsDigitChar = true) := by
  have hiff : isValidPhone s = true ↔
      (s.length = 10 ∧ s.toList.all pyIsDigitChar = true) := by
    simp [isValidPhone]
  refine ⟨?_, ?_, ?_⟩
  · intro h
    have hv : isValidPhone s = true := hiff.mpr h
    constructor <;>
      simp only [Record.create, Record.update_phone, mkPhone, hv, if_true]
  · intro h
    have hv : isValidPhone s = false := by
      rcases hb : isValidPhone s
      · rfl
      · exact absurd (hiff.mp hb) h
    constructor <;>
      simp only [Record.create, Record.update_phone, mkPhone, hv, if_false,
        Bool.false_eq_true]
  · intro h
    simp only [isTenDecimalDigits, Bool.and_eq_true, beq_iff_eq,
      List.all_eq_true] at h
    obtain ⟨hlen, hall⟩ := h
    refine ⟨hlen, List.all_eq_true.mpr ?_⟩
    intro c hc
    exact pyIsDigitChar_of_ascii c (by
      rw [Bool.and_eq_true]
      exact hall c hc)

/-- C6 amended witness: "1234567890" is accepted and stored; "123" is
rejected with `InvalidPhoneNumber`, leaving the record unchanged; and
"1234567890" satisfies the decimal-digit condition of the third
conjunct. -/
theorem phone_validation_python_digits_witness :
    Record.create "Ann" "1234567890" =
        Except.ok ⟨"Ann", "1234567890", none⟩ ∧
      Record.update_phone ⟨"Ann", "1234567890", none⟩ "123" =
        (Except.error BookError.invalidPhoneNumber,
          ⟨"Ann", "1234567890", none⟩) ∧
      "1234567890".length = 10 ∧
        "1234567890".toList.all pyIsDigitChar = true :=
  ⟨((phone_validation_python_digits "1234567890" "Ann"
      ⟨"Ann", "0000000000", none⟩).1 ⟨by decide, by decide⟩).1,
   ((phone_validation_python_digits "123" "Ann"
      ⟨"Ann", "1234567890", none⟩).2.1 (by decide)).2,
   (phone_validation_python_digits "1234567890" "Ann"
      ⟨"Ann", "0000000000", none⟩).2.2 (by decide)⟩

/-- C7: a string that `strptime` parses in day.month.year format makes
`add_birthday` succeed and store the corresponding calendar date,
overwriting whatever birthday the record held before; a string that does
not parse makes it fail with `InvalidDate` and leaves the record — in
particular any previously stored birthday — unchanged. -/
theorem birthday_parse_or_reject (s : String) (r : Record) :
    (∀ d, strptimeDMY s = some d →
        r.add_birthday s = (Except.ok (), { r with birthday := some d })) ∧
    (strptimeDMY s = none →
        r.add_birthday s = (Except.error BookError.invalidDate, r)) := by
  constructor
  · intro d hd
    simp only [Record.add_birthday, hd]
  · intro hn
    simp only [Record.add_birthday, hn]

/-- C7 witness: "17.03.1990" is stored as 1990-03-17, overwriting the
prior birthday; the space-padded " 5.03.1990" and the Unicode-digit year
"17.03.199٠" parse exactly as CPython's strptime does; "17/03/1990" is
rejected with `InvalidDate`, leaving the prior birthday in place. -/
theorem birthday_parse_or_reject_witness :
    Record.add_birthday ⟨"Ann", "1234567890", some ⟨2000, 1, 1⟩⟩ "17.03.1990" =
        (Except.ok (), ⟨"Ann", "1234567890", some ⟨1990, 3, 17⟩⟩) ∧
      Record.add_birthday ⟨"Ann", "1234567890", some ⟨2000, 1, 1⟩⟩ " 5.03.1990" =
        (Except.ok (), ⟨"Ann", "1234567890", some ⟨1990, 3, 5⟩⟩) ∧
      Record.add_birthday ⟨"Ann", "1234567890", some ⟨2000, 1, 1⟩⟩ "17.03.199٠" =
        (Except.ok (), ⟨"Ann", "1234567890", some ⟨1990, 3, 17⟩⟩) ∧
      Record.add_birthday ⟨"Ann", "1234567890", some ⟨2000, 1, 1⟩⟩ "17/03/1990" =
        (Except.error BookError.invalidDate,
          ⟨"Ann", "1234567890", some ⟨2000, 1, 1⟩⟩) :=
  ⟨(birthday_parse_or_reject "17.03.1990"
      ⟨"Ann", "1234567890", some ⟨2000, 1, 1⟩⟩).1 ⟨1990, 3, 17⟩ (by decide),
   (birthday_parse_or_reject " 5.03.1990"
      ⟨"Ann", "1234567890", some ⟨2000, 1, 1⟩⟩).1 ⟨1990, 3, 5⟩ (by decide),
   (birthday_parse_or_reject "17.03.199٠"
      ⟨"Ann", "1234567890", some ⟨2000, 1, 1⟩⟩).1 ⟨1990, 3, 17⟩ (by decide),
   (birthday_parse_or_reject "17/03/1990"
      ⟨"Ann", "1234567890", some ⟨2000, 1, 1⟩⟩).2 (by decide)⟩

theorem filter_replace_eq (l : List (String × Record)) (r : Record)
    (hnd : (l.map Prod.fst).Nodup)
    (hany : l.any (fun e => e.1 == r.name) = true) :
    (l.map (fun e => if e.1 == r.name then (r.name, r) else e)).filter
      (fun e => e.1 == r.name) = [(r.name, r)] := by
  induction l with
  | nil => cases hany
  | cons e rest ih =>
    simp only [List.map_cons, List.nodup_cons, List.any_cons,
      Bool.or_eq_true] at hnd hany
    by_cases he : (e.1 == r.name) = true
    · rw [List.map_cons, if_pos he]
      rw [List.filter_cons_of_pos (by simp)]
      have hempty : (rest.map
          (fun e => if e.1 == r.name then (r.name, r) else e)).filter
            (fun e => e.1 == r.name) = [] := by
        rw [List.filter_eq_nil_iff]
        intro x hx
        obtain ⟨e2, he2, hfe2⟩ := List.mem_map.mp hx
        have hne : (e2.1 == r.name) = false := by
          rcases hb : (e2.1 == r.name)
          · rfl
          · exfalso
            apply hnd.1
            rw [beq_iff_eq.mp he]
            rw [← beq_iff_eq.mp hb]
            exact List.mem_map_of_mem Prod.fst he2
        rw [if_neg (by simp [hne])] at hfe2
        subst hfe2
        simp [hne]
      rw [hempty]
    · rw [List.map_cons, if_neg he]
      rw [List.filter_cons_of_neg (by simpa using he)]
      rcases hany with h1 | h2
      · exact absurd h1 he
      · exact ih hnd.2 h2

/-- C8: `add_record` never fails and keeps at most one entry per name:
after inserting `r` into a book whose keys are distinct, the book's keys
are still distinct and the entries keyed by `r.name` are exactly the
single entry `(r.name, r)` — an existing entry for that name is
overwritten, a missing one is appended, never duplicated. -/
theorem add_record_overwrites_unique_name (book : AddressBook) (r : Record)
    (hnd : (book.map Prod.fst).Nodup) :
    ((book.add_record r).filter (fun e => e.1 == r.name)) = [(r.name, r)] ∧
      ((book.add_record r).map Prod.fst).Nodup := by
  unfold AddressBook.add_record
  by_cases hany : book.any (fun e => e.1 == r.name) = true
  · rw [if_pos hany]
    refine ⟨filter_replace_eq book r hnd hany, ?_⟩
    have hkeys : (book.map
        (fun e => if e.1 == r.name then (r.name, r) else e)).map Prod.fst =
          book.map Prod.fst := by
      rw [List.map_map]
      apply List.map_congr_left
      intro e _
      by_cases h : (e.1 == r.name) = true
      · simp only [Function.comp_apply, if_pos h]
        exact (beq_iff_eq.mp h).symm
      · simp only [Function.comp_apply, if_neg h]
    rw [hkeys]
    exact hnd
  · rw [if_neg hany]
    have hnotin : ∀ a ∈ book, ¬((fun e => e.1 == r.name) a = true) := by
      intro a ha hc
      exact hany (List.any_eq_true.mpr ⟨a, ha, hc⟩)
    constructor
    · rw [List.filter_append]
      rw [List.filter_eq_nil_iff.mpr hnotin]
      simp
    · rw [List.map_append]
      rw [List.nodup_append]
      refine ⟨hnd, by simp, ?_⟩
      intro a ha
      simp only [List.map_cons, List.map_nil, List.mem_singleton]
      intro hc
      subst hc
      obtain ⟨e, he, hfe⟩ := List.mem_map.mp ha
      exact hnotin e he (by simp [hfe])

/-- C8 witness: inserting a record named "Ann" into a book that already has
an "Ann" entry leaves exactly one "Ann" entry, holding the newer record,
with keys still distinct. -/
theorem add_record_overwrites_unique_name_witness :
    ((AddressBook.add_record
        [("Ann", ⟨"Ann", "1111111111", none⟩), ("Bob", ⟨"Bob", "2222222222", none⟩)]
        ⟨"Ann", "3333333333", none⟩).filter
          (fun e => e.1 == "Ann")) = [("Ann", ⟨"Ann", "3333333333", none⟩)] :=
  (add_record_overwrites_unique_name
    [("Ann", ⟨"Ann", "1111111111", none⟩), ("Bob", ⟨"Bob", "2222222222", none⟩)]
    ⟨"Ann", "3333333333", none⟩ (by decide)).1

theorem find?_key_add_record (book : AddressBook) (r : Record) :
    (book.add_record r).find? (fun e => e.1 == r.name) = some (r.name, r) := by
  unfold AddressBook.add_record
  by_cases hany : book.any (fun e => e.1 == r.name) = true
  · rw [if_pos hany]
    rw [List.find?_map]
    have hcomp : ((fun e => e.1 == r.name) ∘
        (fun e => if e.1 == r.name then (r.name, r) else e)) =
          (fun (e : String × Record) => e.1 == r.name) := by
      funext e
      by_cases h : (e.1 == r.name) = true
      · simp only [Function.comp_apply, if_pos h]
        simp [h]
      · simp only [Function.comp_apply, if_neg h]
    rw [hcomp]
    rcases hf : book.find? (fun e => e.1 == r.name) with _ | e0
    · exfalso
      obtain ⟨e0, he0mem, he0⟩ := List.any_eq_true.mp hany
      rw [List.find?_eq_none] at hf
      exact hf e0 he0mem he0
    · have hp := List.find?_some hf
      rw [hf]
      show some (if e0.1 == r.name then (r.name, r) else e0) = some (r.name, r)
      rw [if_pos hp]
  · rw [if_neg hany]
    rw [List.find?_append]
    have hnone : book.find? (fun e => e.1 == r.name) = none := by
      rw [List.find?_eq_none]
      intro x hx hc
      exact hany (List.any_eq_true.mpr ⟨x, hx, hc⟩)
    have hp1 : (fun (e : String × Record) => e.1 == r.name) (r.name, r) = true :=
      beq_self_eq_true r.name
    have hsingle : List.find? (fun e => e.1 == r.name) [(r.name, r)] =
        some (r.name, r) :=
      List.find?_cons_of_pos _ hp1
    rw [hnone, hsingle]
    rfl

/-- C9: after `add_record`, `find` with the inserted record's name returns
that very record (hence matching name and phone); `find` and `delete` on a
name absent from the book both fail with `ContactNotFound`. -/
theorem find_after_add_and_absent_name (book : AddressBook) (r : Record)
    (name : String) :
    (book.add_record r).find r.name = Except.ok r ∧
    ((book.map Prod.fst).contains name = false →
        book.find name = Except.error BookError.contactNotFound ∧
        book.delete name = Except.error BookError.contactNotFound) := by
  constructor
  · unfold AddressBook.find
    rw [find?_key_add_record book r]
  · intro habs
    have hnokey : ∀ x ∈ book, ¬(x.1 == name) = true := by
      intro x hx hc
      have hmemk : name ∈ book.map Prod.fst := by
        rw [← beq_iff_eq.mp hc]
        exact List.mem_map_of_mem Prod.fst hx
      have hcon : (book.map Prod.fst).contains name = true :=
        List.elem_eq_true_of_mem hmemk
      rw [habs] at hcon
      cases hcon
    constructor
    · unfold AddressBook.find
      rw [List.find?_eq_none.mpr hnokey]
    · unfold AddressBook.delete
      rw [if_neg]
      intro hc
      obtain ⟨x, hx, hpx⟩ := List.any_eq_true.mp hc
      exact hnokey x hx hpx

/-- C9 witness: after inserting Bob into a book holding Ann, `find "Bob"`
returns Bob's record, and `find`/`delete` with the absent name "Zed" both
fail with `ContactNotFound`. -/
theorem find_after_add_and_absent_name_witness :
    (AddressBook.add_record [("Ann", ⟨"Ann", "1111111111", none⟩)]
        ⟨"Bob", "2222222222", none⟩).find "Bob" =
        Except.ok ⟨"Bob", "2222222222", none⟩ ∧
      AddressBook.find [("Ann", ⟨"Ann", "1111111111", none⟩)] "Zed" =
        Except.error BookError.contactNotFound ∧
      AddressBook.delete [("Ann", ⟨"Ann", "1111111111", none⟩)] "Zed" =
        Except.error BookError.contactNotFound :=
  have h := find_after_add_and_absent_name
    [("Ann", ⟨"Ann", "1111111111", none⟩)] ⟨"Bob", "2222222222", none⟩ "Zed"
  ⟨h.1, h.2 (by decide)⟩

theorem queryLoopState_fst (clock : Nat → PyDate)
    (l : List (String × Record)) (i : Nat) (st : AddressBook) :
    (queryLoopState clock l i st).1 = st := by
  induction l generalizing i with
  | nil => rfl
  | cons e rest ih =>
    simp only [queryLoopState]
    rcases hbe : e.2.birthday with _ | b <;> dsimp only
    · exact ih i
    · rcases hpe : processEntry (clock i) e.1 b with _ | p <;> dsimp only
      · exact ih (i + 1)
      · exact ih (i + 1)

theorem queryLoopState_snd (clock : Nat → PyDate)
    (l : List (String × Record)) (i : Nat) (st : AddressBook) :
    (queryLoopState clock l i st).2 = getBirthdaysPerWeekClock clock l i := by
  induction l generalizing i with
  | nil => rfl
  | cons e rest ih =>
    simp only [queryLoopState, getBirthdaysPerWeekClock]
    rcases hbe : e.2.birthday with _ | b <;> dsimp only
    · exact ih i
    · rcases hpe : processEntry (clock i) e.1 b with _ | p <;> dsimp only
      · exact ih (i + 1)
      · exact congrArg (p :: ·) (ih (i + 1))

/-- C10: the scheduling query is read-only. Threading the address-book
state through every loop iteration, for every book and every sequence of
internal clock reads the state after the query equals the state before it
— no record is added, removed, or mutated — and the collected result is
exactly what the loop reads off the unchanged book. -/
theorem get_birthdays_per_week_readonly (clock : Nat → PyDate)
    (book : AddressBook) :
    (getBirthdaysPerWeekState clock book).1 = book ∧
      (getBirthdaysPerWeekState clock book).2 =
        getBirthdaysPerWeekClock clock book 0 :=
  ⟨queryLoopState_fst clock book 0 book, queryLoopState_snd clock book 0 book⟩
